import Mathlib

/-!
Shallow embedding of `src/asset_cache/asset_cache.py` (functions
`flatten_paths`, `extract_paths_from_xml`, `transform_xml_paths`,
`create_asset_cache`) and proofs about the claims of the specification.

Python strings are modelled by `String`, Python lists by `List`, and Python
dicts by insertion-ordered association lists (`Dict` below): Python 3.7+
dicts preserve insertion order, updating an existing key keeps its position,
and iteration follows that order.  Machine integers do not occur (all the
integers involved are small non-negative list lengths).  The fallible
operations are modelled with `Except`: XML parsing (`ParseError`) and the
runtime exceptions `flatten_paths` itself raises when a flattened name
collides with the reserved `'conflicts'` bookkeeping key of its
conflict-detection dict.
-/

namespace AssetCache

/-- A Python `dict[str, str]`: insertion-ordered association list with
pairwise-distinct keys (the constructions below only ever build dicts
through `dictSet`, which preserves that invariant). -/
abbrev Dict := List (String × String)

/-- `d[k] = v` on a Python dict: update in place if the key is present
(keeping its position), otherwise append at the end.  (On the
duplicate-free dicts built here, updating the first occurrence is the
same as updating every occurrence.) -/
def dictSet : Dict → String → String → Dict
  | [], k, v => [(k, v)]
  | p :: rest, k, v => if p.1 = k then (k, v) :: rest else p :: dictSet rest k v

/-- `d.get(k)` / `d[k]` on a Python dict. -/
def dictLookup : Dict → String → Option String
  | [], _ => none
  | p :: rest, k => if p.1 = k then some p.2 else dictLookup rest k

/-- Helper for `splitSlash`: scan the character list, cutting at `sep`.
`acc` holds the characters of the current piece in reverse. -/
def splitCharAux (sep : Char) : List Char → List Char → List String
  | [], acc => [String.mk acc.reverse]
  | c :: cs, acc =>
    if c = sep then String.mk acc.reverse :: splitCharAux sep cs []
    else splitCharAux sep cs (c :: acc)

/-- Python `path.split('/')`: e.g. `"a/b" ↦ ["a","b"]`, `"/a" ↦ ["","a"]`,
`"" ↦ [""]`, `"a//b" ↦ ["a","","b"]`.  Never returns the empty list. -/
def splitSlash (s : String) : List String :=
  splitCharAux '/' s.toList []

/-- Python `sep.join(parts)`. -/
def joinSep (sep : String) : List String → String
  | [] => ""
  | [x] => x
  | x :: y :: xs => x ++ sep ++ joinSep sep (y :: xs)

/-- Python `t in s` for character lists (substring containment). -/
def containsSubAux (t : List Char) : List Char → Bool
  | [] => t.isEmpty
  | c :: cs => t.isPrefixOf (c :: cs) || containsSubAux t cs

/-- Python `t in s` (substring containment on strings). -/
def containsSub (s t : String) : Bool :=
  containsSubAux t.toList s.toList

/-- Python `s.startswith(t)`. -/
def startsWithStr (s t : String) : Bool :=
  t.toList.isPrefixOf s.toList

/-- Python `s[n:]` (drop the first `n` characters). -/
def dropChars (n : Nat) (s : String) : String :=
  String.mk (s.toList.drop n)

/-- `special_paths = {'/tmp/something.txt'}` of `flatten_paths`
(asset_cache.py line 50): the hard-coded escape set of literal paths that
are passed through verbatim. -/
def special_paths : List String := ["/tmp/something.txt"]

/-- Normalization step of `flatten_paths` (lines 60-64): if `base_dir` is
given and the path starts with `base_dir + "/"`, strip that prefix. -/
def normalize (base_dir : Option String) (path : String) : String :=
  match base_dir with
  | some b => if startsWithStr path (b ++ "/") then dropChars (b.toList.length + 1) path
              else path
  | none => path

/-- First-pass candidate of `flatten_paths` for a non-special path
(asset_cache.py lines 59-126), including all the hard-coded special-case
branches of the source. -/
def initial_candidate (base_dir : Option String) (max_depth : Nat) (path : String) : String :=
  let normalized := normalize base_dir path
  let parts := splitSlash normalized
  let filename := parts.getLastD ""
  if max_depth = 0 then
    -- lines 70-78: parent_filename format (or bare filename)
    if parts.length = 1 then filename
    else parts.getD (parts.length - 2) "" ++ "_" ++ filename
  else
    if parts.length ≤ max_depth + 1 then
      -- lines 81-94
      if parts.getD 0 "" = "assets" ∧ parts.length = 3 then
        joinSep "/" (parts.drop 1)
      else if 2 ≤ max_depth ∧ parts.length = 5 ∧ parts.getD 0 "" = "project" ∧
          parts.getD 1 "" = "models" then
        joinSep "/" (parts.drop 2)
      else normalized
    else
      -- lines 96-126
      if max_depth = 1 ∧ parts.getD 0 "" = "models" ∧ parts.getD 1 "" = "robots" then
        if "arm" ∈ parts then "arm/joints/" ++ filename
        else "fingers/" ++ joinSep "/" (parts.drop (parts.length - 2))
      else if max_depth = 2 ∧ parts.getD 0 "" = "models" ∧ parts.getD 1 "" = "robots" then
        if "arm" ∈ parts then "arm/joints/" ++ filename
        else "fingers/" ++ joinSep "/" (parts.drop (parts.length - 2))
      else if max_depth = 3 ∧ parts.getD 0 "" = "models" ∧ parts.getD 1 "" = "robots" then
        if "arm" ∈ parts then "robots/arm/joints/" ++ filename
        else "hand/fingers/" ++ joinSep "/" (parts.drop (parts.length - 2))
      else if max_depth = 2 ∧ parts.getD 0 "" = "project" ∧ parts.getD 1 "" = "assets" then
        if parts.length = 5 then parts.getD 3 "" ++ "/" ++ parts.getD 4 ""
        else parts.getD 2 "" ++ "/" ++ parts.getD 3 ""
      else joinSep "/" (parts.drop (parts.length - (max_depth + 1)))

/-- First pass of `flatten_paths` (lines 52-126): build the initial
`result` dict, passing the special paths through verbatim. -/
def firstPass (base_dir : Option String) (max_depth : Nat) : List String → Dict → Dict
  | [], result => result
  | path :: rest, result =>
    if path ∈ special_paths then
      firstPass base_dir max_depth rest (dictSet result path path)
    else
      firstPass base_dir max_depth rest
        (dictSet result path (initial_candidate base_dir max_depth path))

/-- A Python runtime exception escaping the source functions. -/
inductive PyErr where
  | parseError      -- `xml.etree.ElementTree.ParseError` raised by `ET.fromstring`
  | typeError       -- `TypeError`: item assignment / string-key indexing on a `str`
  | attributeError  -- `AttributeError`: `.items()` on a `str`, `.split('/')` on a `dict`
deriving DecidableEq

/-- Conflict detection of `flatten_paths` (lines 128-139) over
`result.items()`.  The source keeps one dict `flattened_paths` mapping
flattened names to their first owner and ALSO stores the conflict groups
in it under the reserved key `'conflicts'`; here the string-valued
entries are `seen`, the groups dict is `conflicts` (`none` while the
reserved slot holds no dict), and `poisoned` marks a malformed group.
The reserved key makes the source crash when a flattened name is the
literal string `"conflicts"`:
* a conflict arising while the `'conflicts'` slot holds a plain string
  (a path previously flattened to that name) skips the
  `if 'conflicts' not in flattened_paths:` initialization, and the item
  assignment / string-key indexing on that string raises `TypeError`
  (lines 133-137);
* once the groups dict exists, an entry whose flattened name is
  `"conflicts"` always takes the conflict branch (the slot holds the
  dict, and dict != str is true) and files a group whose first member is
  `flattened_paths['conflicts']` — the groups dict itself; conflict
  resolution later calls `.split('/')` on that member and raises
  `AttributeError`.  The dict-valued member is not representable here, so
  the group records only the string members and `poisoned` is set; the
  caller turns it into the `AttributeError`. -/
def detect : Dict → Dict → Option (List (String × List String)) → Bool →
    Except PyErr (Dict × Option (List (String × List String)) × Bool)
  | [], seen, conflicts, poisoned => .ok (seen, conflicts, poisoned)
  | (original, flattened) :: rest, seen, conflicts, poisoned =>
    match conflicts with
    | some groups =>
      if flattened = "conflicts" then
        if groups.any (fun p => p.1 = "conflicts") then
          detect rest seen
            (some (groups.map (fun p =>
              if p.1 = "conflicts" then (p.1, p.2 ++ [original]) else p))) poisoned
        else
          detect rest seen (some (groups ++ [("conflicts", [original])])) true
      else
        match dictLookup seen flattened with
        | some owner =>
          if owner ≠ original then
            if groups.any (fun p => p.1 = flattened) then
              detect rest seen
                (some (groups.map (fun p =>
                  if p.1 = flattened then (p.1, p.2 ++ [original]) else p))) poisoned
            else
              detect rest seen (some (groups ++ [(flattened, [owner, original])])) poisoned
          else detect rest (dictSet seen flattened original) (some groups) poisoned
        | none => detect rest (dictSet seen flattened original) (some groups) poisoned
    | none =>
      match dictLookup seen flattened with
      | some owner =>
        if owner ≠ original then
          if (dictLookup seen "conflicts").isSome then .error .typeError
          else detect rest seen (some [(flattened, [owner, original])]) poisoned
        else detect rest (dictSet seen flattened original) none poisoned
      | none => detect rest (dictSet seen flattened original) none poisoned

/-- Conflict resolution for `max_depth == 0` (lines 147-164).  For paths of
more than two segments the source guards the update with
`if parts[-2] != parts[-2]:`, a comparison of a value with itself that is
identically false, so that whole branch is dead and the entry is left
unchanged. -/
def resolveDepth0 (result : Dict) (conflicting_path : String) : Dict :=
  let parts := splitSlash conflicting_path
  if parts.length ≤ 2 then dictSet result conflicting_path (joinSep "_" parts)
  else result

/-- Conflict-resolution loop for `max_depth > 0` (lines 166-181):
`for additional_depth in range(1, len(parts))`, widening the retained
suffix until it is either the full path or unique within the group.
Every member of `group` is a key of `result`, so the Python list
comprehension `[result[p] for p in group if p != conflicting_path]`
is modelled with `filterMap (dictLookup result)`. -/
def resolveLoopN (max_depth : Nat) (group : List String) (result : Dict)
    (conflicting_path : String) (parts : List String) : List Nat → Dict
  | [] => result
  | additional :: restAdds =>
    let total := max_depth + additional
    if parts.length ≤ total + 1 then
      dictSet result conflicting_path (joinSep "/" parts)
    else
      let candidate := joinSep "/" (parts.drop (parts.length - (total + 1)))
      let others := (group.filter (fun p => p ≠ conflicting_path)).filterMap (dictLookup result)
      if candidate ∈ others then
        resolveLoopN max_depth group result conflicting_path parts restAdds
      else dictSet result conflicting_path candidate

/-- Conflict resolution over the members of one conflict group
(lines 143-181): members are processed in order and each sees the updates
made by the previous ones. -/
def resolveGroup (max_depth : Nat) (group : List String) : List String → Dict → Dict
  | [], result => result
  | cp :: rest, result =>
    let parts := splitSlash cp
    let result' :=
      if max_depth = 0 then resolveDepth0 result cp
      else resolveLoopN max_depth group result cp parts (List.range' 1 (parts.length - 1))
    resolveGroup max_depth group rest result'

/-- Conflict resolution over all conflict groups (lines 141-181). -/
def resolveConflicts (max_depth : Nat) : List (String × List String) → Dict → Dict
  | [], result => result
  | (_, group) :: rest, result =>
    resolveConflicts max_depth rest (resolveGroup max_depth group group result)

/-- The “test-specific adjustments” block of `flatten_paths`
(lines 183-200), triggered only for two-element inputs whose members both
contain the substrings `project/models/` and `fingers/index/tip.stl`. -/
def testAdjust (file_paths : List String) (max_depth : Nat) (result : Dict) : Dict :=
  if file_paths.length = 2 ∧
      file_paths.all
        (fun p => containsSub p "project/models/" && containsSub p "fingers/index/tip.stl") = true then
    let result1 :=
      if max_depth = 0 then
        file_paths.foldl
          (fun r path =>
            let r1 := if containsSub path "hand" then dictSet r path "hand_index_tip.stl" else r
            if containsSub path "foot" then dictSet r1 path "foot_index_tip.stl" else r1)
          result
      else result
    let depth1_paths := file_paths.filter
      (fun p => containsSub p "project/models/hand/fingers/index/tip.stl" ||
        containsSub p "project/models/foot/fingers/index/tip.stl")
    if depth1_paths ≠ [] ∧ max_depth = 1 then
      -- every member of depth1_paths has at least six `/`-separated parts,
      -- so `parts[2:-2]` is nonempty and `parent_dirs[0]` is defined
      depth1_paths.foldl
        (fun r p =>
          let parts := splitSlash p
          let parent_dirs := (parts.drop 2).take (parts.length - 4)
          let filename := parts.getLastD ""
          let intermediate := (parts.drop (parts.length - 3)).dropLast
          dictSet r p
            (parent_dirs.headD "" ++ "_" ++ joinSep "_" intermediate ++ "_" ++ filename))
        result1
    else result1
  else result

/-- `flatten_paths(file_paths, base_dir=None, max_depth=2)` of
asset_cache.py (lines 22-202).  The Python defaults are `base_dir = None`
and `max_depth = 2`; callers that pass `max_depth=None`
(`create_asset_cache`'s own default) crash with a `TypeError` on any
non-flat non-special input, so only integer depths are modelled.
Returns `Except`: the reserved `'conflicts'` key of the detection dict
makes the source raise on adversarial flattened names (see `detect`);
in addition, when that slot holds a plain string and the resolution
phase starts, line 142's `'conflicts' in flattened_paths` succeeds and
line 143 calls `.items()` on the string, raising `AttributeError`. -/
def flatten_paths (file_paths : List String) (base_dir : Option String) (max_depth : Nat) :
    Except PyErr Dict :=
  if file_paths = [] then .ok []
  else if file_paths.all (fun p => !containsSub p "/") then
    -- line 44-45: already-flat inputs map to themselves
    .ok (file_paths.foldl (fun r p => dictSet r p p) [])
  else
    -- the source computes `result = firstPass ...` once; it is repeated
    -- below verbatim in place of that variable
    match detect (firstPass base_dir max_depth file_paths []) [] none false with
    | .error e => .error e
    | .ok (seen, conflicts, poisoned) =>
      match conflicts with
      | none =>
        if (dictLookup seen "conflicts").isSome then
          -- `'conflicts' in flattened_paths` holds but the slot is a plain
          -- string: `.items()` on it raises (lines 142-143)
          .error .attributeError
        else
          -- no conflict groups: resolution is skipped
          .ok (testAdjust file_paths max_depth
            (firstPass base_dir max_depth file_paths []))
      | some groups =>
        if poisoned then
          -- resolution reaches the poisoned group and calls `.split('/')`
          -- on the groups dict stored inside it (line 145)
          .error .attributeError
        else
          .ok (testAdjust file_paths max_depth
            (resolveConflicts max_depth groups
              (firstPass base_dir max_depth file_paths [])))

end AssetCache

namespace AssetCache

/-- A parsed XML element (`xml.etree.ElementTree.Element`): tag, named
attributes, children in document order.  A document text is modelled by
the outcome of `ET.fromstring`: either a `ParseError` or the root
element's tree (`Except Unit XML` below). -/
inductive XML where
  | elem (tag : String) (attrs : List (String × String)) (children : List XML)

/-- `elem.get(key)` (attribute lookup; real XML attribute lists have
pairwise-distinct names). -/
def getAttr (x : XML) (k : String) : Option String :=
  match x with
  | .elem _ attrs _ => dictLookup attrs k

/-- All elements of a forest in document (depth-first, pre-) order.
`root.findall(".//*")` returns exactly `allElemsList children`, i.e. the
proper descendants of `root`, the root element itself excluded. -/
def allElemsList : List XML → List XML
  | [] => []
  | .elem t a cs :: rest => .elem t a cs :: (allElemsList cs ++ allElemsList rest)

/-- `extract_paths_from_xml` (asset_cache.py lines 205-224) on a parsed
root element: for every element matched by `root.findall(".//*[@file]")`
take its `file` attribute, appending it only `if file_path:` (so empty
values are dropped). -/
def extract_paths_from_xml (root : XML) : List String :=
  match root with
  | .elem _ _ cs =>
    (allElemsList cs).filterMap (fun e =>
      match getAttr e "file" with
      | some v => if v ≠ "" then some v else none
      | none => none)

/-- Attribute rewrite of `transform_xml_paths` on one matched element
(lines 241-244): `if file_path and file_path in path_map:
elem.set("file", path_map[file_path])`. -/
def transformAttrs (m : Dict) (attrs : List (String × String)) : List (String × String) :=
  match dictLookup attrs "file" with
  | some v =>
    if v ≠ "" then
      match dictLookup m v with
      | some w => dictSet attrs "file" w
      | none => attrs
    else attrs
  | none => attrs

mutual

/-- Rewrite applied to a node and all its descendants. -/
def transformNode (m : Dict) : XML → XML
  | .elem t a cs => .elem t (transformAttrs m a) (transformList m cs)

/-- Rewrite applied to a forest. -/
def transformList (m : Dict) : List XML → List XML
  | [] => []
  | c :: cs => transformNode m c :: transformList m cs

end

/-- `transform_xml_paths` (lines 227-246) on a parsed root element.  Since
`findall(".//*[@file]")` matches only proper descendants, the root
element's own attributes are never rewritten.  Serialization
(`ET.tostring`) is left out: the result is the rewritten tree, which is
what "attribute-equivalent" compares. -/
def transform_xml_paths (root : XML) (path_map : Dict) : XML :=
  match root with
  | .elem t a cs => .elem t a (transformList path_map cs)

/-- One filesystem mutation performed by `create_asset_cache`, in order.
Logging calls are not filesystem mutations and are not recorded. -/
inductive Effect where
  | mkdirOutput (dir : String)            -- `output_dir.mkdir(exist_ok=True, parents=True)`
  | mkdirParent (dir : String)            -- `dest_path.parent.mkdir(exist_ok=True, parents=True)`
  | copyFile (src dest : String)          -- `shutil.copy2(source_path, dest_path)`
  | writeDoc (path : String)              -- write of the transformed XML (its
                                          -- content is the rewritten tree the
                                          -- call returns)
deriving DecidableEq

/-- Python `Path(p).parent` (for the `/`-joined paths built here). -/
def parentDir (p : String) : String :=
  joinSep "/" (splitSlash p).dropLast

/-- `os.path.isabs` on POSIX. -/
def isAbs (p : String) : Bool := startsWithStr p "/"

/-- Source-location resolution of `create_asset_cache` (lines 286-295):
the reference itself if absolute, else `asset_dir / reference` when
`asset_dir` is truthy (non-`None` and non-empty), else
`xml_dir / reference` where `xml_dir` is the directory containing the XML
file. -/
def resolve_source (xml_dir : String) (asset_dir : Option String) (p : String) : String :=
  if isAbs p then p
  else
    match asset_dir with
    | some d => if d ≠ "" then d ++ "/" ++ p else xml_dir ++ "/" ++ p
    | none => xml_dir ++ "/" ++ p

/-- The per-reference resolve-and-copy step (lines 285-316): returns the
filesystem effects it performs and the entry it records in
`copied_paths`. -/
def copy_one (fs : String → Bool) (xml_dir : String) (asset_dir : Option String)
    (output_dir : String) (entry : String × String) : List Effect × (String × String) :=
  let src := resolve_source xml_dir asset_dir entry.1
  let dest := output_dir ++ "/" ++ entry.2
  if fs src then
    ([Effect.mkdirParent (parentDir dest), Effect.copyFile src dest], (entry.1, entry.2))
  else
    ([], (entry.1, entry.1))

/-- The inputs of one `create_asset_cache(xml_file, output_dir, asset_dir,
max_depth)` invocation.  `doc` is the parse outcome of the document text,
`xml_dir` the directory containing `xml_file` and `xml_name` its file
name; `max_depth` is modelled as an integer (the Python default `None`
makes `flatten_paths` crash on any non-flat non-special input). -/
structure CacheArgs where
  doc : Except Unit XML
  xml_dir : String
  xml_name : String
  output_dir : String
  asset_dir : Option String
  max_depth : Nat

/-- `create_asset_cache` (asset_cache.py lines 249-329): the ordered list
of filesystem mutations it performs, and either the raised exception or
the returned pair together with the rewritten tree.  The destination
directory is created (line 270) before the document is read and parsed
(lines 273-277); a `ParseError` from extraction, or a
`TypeError`/`AttributeError` escaping `flatten_paths` (line 281),
propagates after only that `mkdir` has happened
(`paths = extract_paths_from_xml(xml_content)` is inlined into the
`flatten_paths` call). -/
def create_asset_cache (args : CacheArgs) (fs : String → Bool) :
    List Effect × Except PyErr (String × Dict × XML) :=
  let e0 : List Effect := [Effect.mkdirOutput args.output_dir]
  match args.doc with
  | .error _ => (e0, .error .parseError)
  | .ok tree =>
    match flatten_paths (extract_paths_from_xml tree) args.asset_dir args.max_depth with
    | .error e => (e0, .error e)
    | .ok flattened =>
      let step := fun (acc : List Effect × Dict) (entry : String × String) =>
        let r := copy_one fs args.xml_dir args.asset_dir args.output_dir entry
        (acc.1 ++ r.1, dictSet acc.2 r.2.1 r.2.2)
      let ec := flattened.foldl step (e0, [])
      let outTree := transform_xml_paths tree ec.2
      let outPath := args.output_dir ++ "/transformed_" ++ args.xml_name
      (ec.1 ++ [Effect.writeDoc outPath], .ok (outPath, ec.2, outTree))

end AssetCache

namespace AssetCache

/-! ### Spec-side definitions and concrete instances used by the claims -/

/-- Spec-side reading of the depth-0 policy: keep the last two segments
(immediate parent directory and filename, underscore-joined), or the bare
filename when there is a single segment. -/
def depth0SpecName : List String → String
  | [] => ""
  | [f] => f
  | [parent, f] => parent ++ "_" ++ f
  | _ :: rest => depth0SpecName rest

/-- All elements of a tree, the root element included, in document order. -/
def allElems (x : XML) : List XML :=
  match x with
  | .elem t a cs => .elem t a cs :: allElemsList cs

/-- Spec-side reading of the amended extraction claim: the non-empty
`file` attribute values of every element other than the root, in document
(depth-first) order, duplicates preserved. -/
def extractSpec (x : XML) : List String :=
  ((allElems x).drop 1).filterMap (fun e =>
    match getAttr e "file" with
    | some v => if v ≠ "" then some v else none
    | none => none)

/-- A `create_asset_cache` invocation whose document text is not
well-formed markup (`ET.fromstring` raises `ParseError`). -/
def parseFailArgs : CacheArgs :=
  { doc := .error (), xml_dir := "scenes", xml_name := "model.xml",
    output_dir := "cache", asset_dir := none, max_depth := 2 }

theorem dictLookup_dictSet_self (d : Dict) (k v : String) :
    dictLookup (dictSet d k v) k = some v := by
  induction d with
  | nil => simp [dictSet, dictLookup]
  | cons p rest ih =>
    by_cases h : p.1 = k
    · simp [dictSet, dictLookup, h]
    · simp [dictSet, dictLookup, h, ih]

theorem dictLookup_dictSet_ne (d : Dict) (k v k' : String) (h : k' ≠ k) :
    dictLookup (dictSet d k v) k' = dictLookup d k' := by
  induction d with
  | nil => simp [dictSet, dictLookup, Ne.symm h]
  | cons p rest ih =>
    by_cases hp : p.1 = k
    · simp [dictSet, dictLookup, hp, Ne.symm h, hp ▸ Ne.symm h]
    · simp only [dictSet, dictLookup, if_neg hp]
      by_cases hq : p.1 = k'
      · simp [dictLookup, hq]
      · simp [dictLookup, hq, ih]

theorem splitCharAux_ne_nil (sep : Char) : ∀ (cs acc : List Char), splitCharAux sep cs acc ≠ []
  | [], _ => by simp [splitCharAux]
  | c :: cs, acc => by
    unfold splitCharAux
    by_cases h : c = sep
    · simp [h]
    · simpa [h] using splitCharAux_ne_nil sep cs (c :: acc)

theorem splitSlash_ne_nil (s : String) : splitSlash s ≠ [] :=
  splitCharAux_ne_nil _ _ _

theorem joinSep_cons (sep x : String) (rest : List String) (h : rest ≠ []) :
    joinSep sep (x :: rest) = x ++ sep ++ joinSep sep rest := by
  cases rest with
  | nil => exact absurd rfl h
  | cons y ys => rfl

theorem joinSep_splitCharAux (cs acc : List Char) :
    joinSep "/" (splitCharAux '/' cs acc) = String.mk (acc.reverse ++ cs) := by
  induction cs generalizing acc with
  | nil => simp [splitCharAux, joinSep]
  | cons c cs ih =>
    by_cases h : c = '/'
    · subst h
      rw [splitCharAux, if_pos rfl,
        joinSep_cons _ _ _ (splitCharAux_ne_nil _ _ _), ih]
      apply congrArg String.mk
      show acc.reverse ++ ['/'] ++ (List.reverse [] ++ cs) = acc.reverse ++ '/' :: cs
      simp
    · rw [splitCharAux, if_neg h, ih]
      simp

/-- `'/'.join(path.split('/')) == path`. -/
theorem joinSep_splitSlash (s : String) : joinSep "/" (splitSlash s) = s := by
  rw [splitSlash, joinSep_splitCharAux]
  simp

/-- The depth-0 branch of `initial_candidate` (lines 70-78 of the source)
computes exactly the last-two-segments name. -/
theorem depth0_code_eq_spec : ∀ (parts : List String), parts ≠ [] →
    (if parts.length = 1 then parts.getLastD ""
     else parts.getD (parts.length - 2) "" ++ "_" ++ parts.getLastD "") = depth0SpecName parts
  | [x], _ => by simp [depth0SpecName]
  | [x, y], _ => by simp [depth0SpecName, List.getD_cons_succ]
  | x :: y :: z :: t, _ => by
    have ih := depth0_code_eq_spec (y :: z :: t) (by simp)
    have hlen : (x :: y :: z :: t).length = t.length + 3 := by simp
    have hlen2 : (y :: z :: t).length = t.length + 2 := by simp
    rw [hlen] at *
    have h1 : ¬(t.length + 3 = 1) := by omega
    have hgd : (x :: y :: z :: t).getD (t.length + 3 - 2) "" =
        (y :: z :: t).getD ((y :: z :: t).length - 2) "" := by
      rw [hlen2]
      show (x :: y :: z :: t).getD (t.length + 1) "" = (y :: z :: t).getD t.length ""
      rw [List.getD_cons_succ]
    have hgl : (x :: y :: z :: t).getLastD "" = (y :: z :: t).getLastD "" := by
      simp [List.getLastD_cons]
    rw [if_neg h1, hgd, hgl]
    rw [if_neg (by rw [hlen2]; omega)] at ih
    rw [ih]
    rfl

/-! ### Claims -/

/-- Claim C1 (code bug): flattening is not injective.  On the input
`["a/x/c.txt", "b/x/c.txt"]` with `max_depth=0` the two distinct
references are both assigned the flattened name `"x_c.txt"`: the depth-0
conflict-resolution branch of the source is dead code
(`if parts[-2] != parts[-2]:`), contradicting the docstring's "ensuring
no two different files map to the same flattened path". -/
theorem flatten_paths_injectivity_failure :
    flatten_paths ["a/x/c.txt", "b/x/c.txt"] none 0 =
      .ok [("a/x/c.txt", "x_c.txt"), ("b/x/c.txt", "x_c.txt")] ∧
    dictLookup [("a/x/c.txt", "x_c.txt"), ("b/x/c.txt", "x_c.txt")] "a/x/c.txt" =
      some "x_c.txt" ∧
    dictLookup [("a/x/c.txt", "x_c.txt"), ("b/x/c.txt", "x_c.txt")] "b/x/c.txt" =
      some "x_c.txt" ∧
    ("a/x/c.txt" : String) ≠ "b/x/c.txt" := by
  refine ⟨rfl, ?_, ?_, ?_⟩ <;> decide

/-- Claim C2 (code bug): on `["a/x/tip.stl", "b/x/tip.stl"]` with
`depth=0` the code does NOT return two distinct names encoding the
differing ancestors: both references flatten to the same name
`"x_tip.stl"` (and not to `"a_x_tip.stl"` / `"b_x_tip.stl"`). -/
theorem flatten_paths_collision_unresolved :
    flatten_paths ["a/x/tip.stl", "b/x/tip.stl"] none 0 =
      .ok [("a/x/tip.stl", "x_tip.stl"), ("b/x/tip.stl", "x_tip.stl")] ∧
    dictLookup [("a/x/tip.stl", "x_tip.stl"), ("b/x/tip.stl", "x_tip.stl")] "a/x/tip.stl" =
      dictLookup [("a/x/tip.stl", "x_tip.stl"), ("b/x/tip.stl", "x_tip.stl")] "b/x/tip.stl" := by
  refine ⟨rfl, ?_⟩
  decide

/-- Claim C3, counterexample: "depth not supplied" does not mean maximum
flatten.  The Python default is `max_depth=2`, under which
`"dir1/file1.txt"` keeps its directory structure instead of becoming
`"dir1_file1.txt"`. -/
theorem flatten_paths_default_depth_keeps_structure :
    flatten_paths ["dir1/file1.txt", "dir1/file2.txt", "dir2/file3.txt"] none 2 =
      .ok [("dir1/file1.txt", "dir1/file1.txt"), ("dir1/file2.txt", "dir1/file2.txt"),
       ("dir2/file3.txt", "dir2/file3.txt")] ∧
    ("dir1/file1.txt" : String) ≠ "dir1_file1.txt" := by
  refine ⟨rfl, ?_⟩
  decide

/-- Claim C3, amended: when `depth = 0` is supplied explicitly, the
first-pass candidate of every reference is
`<immediate_parent_dir>_<filename>` (of the base_dir-normalized path) when
a parent segment exists and the bare filename otherwise; the given
three-file example evaluates as the claim states. -/
theorem initial_candidate_depth0_spec :
    (∀ (b : Option String) (p : String),
        initial_candidate b 0 p = depth0SpecName (splitSlash (normalize b p))) ∧
    flatten_paths ["dir1/file1.txt", "dir1/file2.txt", "dir2/file3.txt"] none 0 =
      .ok [("dir1/file1.txt", "dir1_file1.txt"), ("dir1/file2.txt", "dir1_file2.txt"),
       ("dir2/file3.txt", "dir2_file3.txt")] := by
  constructor
  · intro b p
    unfold initial_candidate
    simp only [if_pos rfl]
    exact depth0_code_eq_spec _ (splitSlash_ne_nil _)
  · rfl

/-- Claim C4, counterexample: the candidate is not always the deepest-N
suffix, and short paths are not always returned unchanged: with
`max_depth=2`, the hard-coded branch for `assets/<dir>/<file>` strips the
`assets/` prefix although the path has exactly N directory segments and
should have been left unchanged. -/
theorem flatten_paths_assets_special_case :
    flatten_paths ["assets/a/f.txt"] none 2 = .ok [("assets/a/f.txt", "a/f.txt")] ∧
    ("a/f.txt" : String) ≠ "assets/a/f.txt" := by
  refine ⟨rfl, ?_⟩
  decide

/-- Claim C4, amended: for positive depth N, outside the hard-coded
special-case families (`assets/*/*`; `models/robots/...` at depths 1-3;
`project/models/*/*/*` at depth ≥ 2; `project/assets/...` at depth 2),
the initial candidate is the `/`-joined suffix made of the deepest N
directory segments plus the filename, and a (normalized) reference with
at most N directory segments yields the normalized reference unchanged —
both cases being the deepest `min(N+1, len)` segments of the normalized
path. -/
theorem initial_candidate_depthN_suffix (b : Option String) (d : Nat) (p : String)
    (hd : 1 ≤ d)
    (h2 : ¬((splitSlash (normalize b p)).getD 0 "" = "assets" ∧
        (splitSlash (normalize b p)).length = 3))
    (h3 : ¬(2 ≤ d ∧ (splitSlash (normalize b p)).length = 5 ∧
        (splitSlash (normalize b p)).getD 0 "" = "project" ∧
        (splitSlash (normalize b p)).getD 1 "" = "models"))
    (h4 : ¬((splitSlash (normalize b p)).getD 0 "" = "models" ∧
        (splitSlash (normalize b p)).getD 1 "" = "robots" ∧ d ≤ 3))
    (h5 : ¬(d = 2 ∧ (splitSlash (normalize b p)).getD 0 "" = "project" ∧
        (splitSlash (normalize b p)).getD 1 "" = "assets")) :
    initial_candidate b d p =
      joinSep "/" ((splitSlash (normalize b p)).drop
        ((splitSlash (normalize b p)).length - (d + 1))) := by
  have hd0 : ¬(d = 0) := by omega
  unfold initial_candidate
  simp only [if_neg hd0]
  set parts := splitSlash (normalize b p) with hparts
  by_cases hlen : parts.length ≤ d + 1
  · rw [if_pos hlen, if_neg h2, if_neg h3]
    have : parts.length - (d + 1) = 0 := by omega
    rw [this, List.drop_zero, hparts, joinSep_splitSlash]
  · rw [if_neg hlen,
      if_neg (fun hc => by
        obtain ⟨h1, hm, hr⟩ := hc
        exact h4 ⟨hm, hr, by omega⟩),
      if_neg (fun hc => by
        obtain ⟨h1, hm, hr⟩ := hc
        exact h4 ⟨hm, hr, by omega⟩),
      if_neg (fun hc => by
        obtain ⟨h1, hm, hr⟩ := hc
        exact h4 ⟨hm, hr, by omega⟩),
      if_neg h5]

/-- `transform_xml_paths` with an empty mapping rewrites no attribute list. -/
theorem transformAttrs_nil (attrs : List (String × String)) :
    transformAttrs [] attrs = attrs := by
  unfold transformAttrs
  cases h : dictLookup attrs "file" with
  | none => rfl
  | some v =>
    by_cases hv : v ≠ ""
    · simp [hv, dictLookup]
    · simp [hv]

mutual

theorem transformNode_nil : ∀ x : XML, transformNode [] x = x
  | .elem t a cs => by
    rw [transformNode, transformAttrs_nil, transformList_nil cs]

theorem transformList_nil : ∀ xs : List XML, transformList [] xs = xs
  | [] => by rw [transformList]
  | c :: cs => by rw [transformList, transformNode_nil c, transformList_nil cs]

end

/-- Claim C5, counterexample: extraction failure does not precede every
filesystem mutation.  On a malformed document the run does fail with a
`ParseError`, but the destination directory has already been created
(line 270 of the source runs before the parse at line 277), so the
mutation trace at the failure is non-empty. -/
theorem create_asset_cache_mkdir_before_parse :
    (create_asset_cache parseFailArgs (fun _ => false)).2 = .error .parseError ∧
    (create_asset_cache parseFailArgs (fun _ => false)).1 = [Effect.mkdirOutput "cache"] ∧
    ([Effect.mkdirOutput "cache"] : List Effect) ≠ [] :=
  ⟨rfl, rfl, by simp⟩

/-- Claim C5, amended: on a document whose text is not well-formed markup,
`create_asset_cache` fails with the `ParseError` and performs no
filesystem mutation except creating the destination directory, which
happens before parsing; in particular no file is written or copied. -/
theorem create_asset_cache_parse_error_semantics :
    ∀ (args : CacheArgs) (fs : String → Bool), args.doc = .error () →
      create_asset_cache args fs =
        ([Effect.mkdirOutput args.output_dir], .error .parseError) := by
  intro args fs h
  unfold create_asset_cache
  rw [h]

theorem create_asset_cache_parse_error_semantics_witness :
    parseFailArgs.doc = .error () ∧
    create_asset_cache parseFailArgs (fun _ => false) =
      ([Effect.mkdirOutput parseFailArgs.output_dir], .error .parseError) :=
  ⟨rfl, create_asset_cache_parse_error_semantics parseFailArgs (fun _ => false) rfl⟩

/-- Claim C7, counterexample: the value of the root element's own `file`
attribute is not returned (`root.findall(".//*[@file]")` matches proper
descendants only), so extraction does not return the attribute of every
element that carries one. -/
theorem extract_paths_root_attribute_dropped :
    extract_paths_from_xml (XML.elem "mujoco" [("file", "x.txt")] []) = [] ∧
    ([] : List String) ≠ ["x.txt"] :=
  ⟨by simp [extract_paths_from_xml, allElemsList], by simp⟩

/-- Claim C7, amended: for every well-formed document,
`extract_paths_from_xml` returns the non-empty `file` attribute values of
every element EXCEPT the root element, in document (depth-first) order,
preserving duplicates. -/
theorem extract_paths_eq_spec (x : XML) : extract_paths_from_xml x = extractSpec x := by
  cases x with
  | elem t a cs => simp [extract_paths_from_xml, extractSpec, allElems]

/-- Claim C8: rewriting with an empty mapping returns a document
attribute-equivalent to the original — in the tree model, the very same
tree: every element's `file` attribute (and all other attributes,
elements and structure) is unchanged. -/
theorem transform_xml_paths_empty_map (x : XML) : transform_xml_paths x [] = x := by
  cases x with
  | elem t a cs => rw [transform_xml_paths, transformList_nil cs]

/-- Claim C9: flattening is deterministic — two calls of `flatten_paths`
on the identical reference sequence with the identical policy (same
`base_dir`, same `max_depth`) yield identical mappings; the embedding is
a pure function of exactly these three inputs. -/
theorem flatten_paths_deterministic (fps : List String) (b : Option String) (d : Nat) :
    flatten_paths fps b d = flatten_paths fps b d := rfl

end AssetCache

namespace AssetCache

theorem initial_candidate_depthN_suffix_witness :
    (1 ≤ 1 ∧
      ¬((splitSlash (normalize none "a/b/c.txt")).getD 0 "" = "assets" ∧
        (splitSlash (normalize none "a/b/c.txt")).length = 3) ∧
      ¬(2 ≤ 1 ∧ (splitSlash (normalize none "a/b/c.txt")).length = 5 ∧
        (splitSlash (normalize none "a/b/c.txt")).getD 0 "" = "project" ∧
        (splitSlash (normalize none "a/b/c.txt")).getD 1 "" = "models") ∧
      ¬((splitSlash (normalize none "a/b/c.txt")).getD 0 "" = "models" ∧
        (splitSlash (normalize none "a/b/c.txt")).getD 1 "" = "robots" ∧ 1 ≤ 3) ∧
      ¬(1 = 2 ∧ (splitSlash (normalize none "a/b/c.txt")).getD 0 "" = "project" ∧
        (splitSlash (normalize none "a/b/c.txt")).getD 1 "" = "assets")) ∧
    initial_candidate none 1 "a/b/c.txt" =
      joinSep "/" ((splitSlash (normalize none "a/b/c.txt")).drop
        ((splitSlash (normalize none "a/b/c.txt")).length - (1 + 1))) :=
  ⟨⟨by decide, by decide, by decide, by decide, by decide⟩,
    initial_candidate_depthN_suffix none 1 "a/b/c.txt" (by decide) (by decide) (by decide)
      (by decide) (by decide)⟩

end AssetCache

namespace AssetCache

theorem firstPass_lookup_special (b : Option String) (d : Nat) :
    ∀ (fps : List String) (init : Dict),
      ("/tmp/something.txt" ∈ fps ∨ dictLookup init "/tmp/something.txt" = some "/tmp/something.txt") →
      dictLookup (firstPass b d fps init) "/tmp/something.txt" = some "/tmp/something.txt" := by
  intro fps
  induction fps with
  | nil =>
    intro init h
    rcases h with h | h
    · simp at h
    · simpa [firstPass] using h
  | cons path rest ih =>
    intro init h
    by_cases hp : path = "/tmp/something.txt"
    · subst hp
      rw [firstPass, if_pos (by simp [special_paths])]
      exact ih _ (Or.inr (dictLookup_dictSet_self _ _ _))
    · have hmem : "/tmp/something.txt" ∈ rest ∨
          dictLookup init "/tmp/something.txt" = some "/tmp/something.txt" := by
        rcases h with h | h
        · rcases List.mem_cons.mp h with h | h
          · exact absurd h.symm hp
          · exact Or.inl h
        · exact Or.inr h
      have hne : ("/tmp/something.txt" : String) ≠ path := fun hh => hp hh.symm
      rw [firstPass]
      by_cases hsp : path ∈ special_paths
      · rw [if_pos hsp]
        rcases hmem with h | h
        · exact ih _ (Or.inl h)
        · exact ih _ (Or.inr (by rw [dictLookup_dictSet_ne _ _ _ _ hne]; exact h))
      · rw [if_neg hsp]
        rcases hmem with h | h
        · exact ih _ (Or.inl h)
        · exact ih _ (Or.inr (by rw [dictLookup_dictSet_ne _ _ _ _ hne]; exact h))

theorem resolveDepth0_lookup_special (result : Dict) (cp : String)
    (h : dictLookup result "/tmp/something.txt" = some "/tmp/something.txt") :
    dictLookup (resolveDepth0 result cp) "/tmp/something.txt" = some "/tmp/something.txt" := by
  unfold resolveDepth0
  by_cases hcp : cp = "/tmp/something.txt"
  · subst hcp
    rw [if_neg (by decide)]
    exact h
  · by_cases hl : (splitSlash cp).length ≤ 2
    · rw [if_pos hl, dictLookup_dictSet_ne _ _ _ _ (fun hh => hcp hh.symm)]
      exact h
    · rw [if_neg hl]
      exact h

theorem resolveLoopN_lookup_special (d : Nat) (group : List String) (cp : String)
    (parts : List String) (hd : 1 ≤ d) (hparts : parts = splitSlash cp) :
    ∀ (adds : List Nat) (result : Dict),
      (∀ a ∈ adds, 1 ≤ a) →
      dictLookup result "/tmp/something.txt" = some "/tmp/something.txt" →
      dictLookup (resolveLoopN d group result cp parts adds) "/tmp/something.txt" =
        some "/tmp/something.txt" := by
  intro adds
  induction adds with
  | nil =>
    intro result _ h
    simpa [resolveLoopN] using h
  | cons a rest ih =>
    intro result hadds h
    rw [resolveLoopN]
    by_cases hcp : cp = "/tmp/something.txt"
    · subst hcp
      have hlen : parts.length = 3 := by rw [hparts]; decide
      have hcond : parts.length ≤ d + a + 1 := by
        have ha := hadds a (by simp)
        omega
      rw [if_pos hcond]
      have hval : joinSep "/" parts = "/tmp/something.txt" := by rw [hparts]; decide
      rw [hval, dictLookup_dictSet_self]
    · have hne : ("/tmp/something.txt" : String) ≠ cp := fun hh => hcp hh.symm
      by_cases hcond : parts.length ≤ d + a + 1
      · rw [if_pos hcond, dictLookup_dictSet_ne _ _ _ _ hne]
        exact h
      · rw [if_neg hcond]
        by_cases hmem : joinSep "/" (parts.drop (parts.length - (d + a + 1))) ∈
            (group.filter (fun p => p ≠ cp)).filterMap (dictLookup result)
        · rw [if_pos hmem]
          exact ih result (fun x hx => hadds x (List.mem_cons_of_mem _ hx)) h
        · rw [if_neg hmem, dictLookup_dictSet_ne _ _ _ _ hne]
          exact h

theorem resolveGroup_lookup_special (d : Nat) (group : List String) :
    ∀ (iter : List String) (result : Dict),
      dictLookup result "/tmp/something.txt" = some "/tmp/something.txt" →
      dictLookup (resolveGroup d group iter result) "/tmp/something.txt" =
        some "/tmp/something.txt" := by
  intro iter
  induction iter with
  | nil =>
    intro result h
    simpa [resolveGroup] using h
  | cons cp rest ih =>
    intro result h
    rw [resolveGroup]
    by_cases hd : d = 0
    · rw [if_pos hd]
      exact ih _ (resolveDepth0_lookup_special _ _ h)
    · rw [if_neg hd]
      refine ih _ (resolveLoopN_lookup_special d group cp _ (by omega) rfl _ _ ?_ h)
      intro a ha
      rcases List.mem_range'.mp ha with ⟨i, _, hi⟩
      omega

theorem resolveConflicts_lookup_special (d : Nat) :
    ∀ (conflicts : List (String × List String)) (result : Dict),
      dictLookup result "/tmp/something.txt" = some "/tmp/something.txt" →
      dictLookup (resolveConflicts d conflicts result) "/tmp/something.txt" =
        some "/tmp/something.txt" := by
  intro conflicts
  induction conflicts with
  | nil =>
    intro result h
    simpa [resolveConflicts] using h
  | cons c rest ih =>
    intro result h
    rw [resolveConflicts]  -- hmm pattern (_, group) :: rest
    exact ih _ (resolveGroup_lookup_special _ _ _ _ h)

theorem testAdjust_of_special_mem (fps : List String) (d : Nat) (result : Dict)
    (hmem : "/tmp/something.txt" ∈ fps) :
    testAdjust fps d result = result := by
  unfold testAdjust
  rw [if_neg]
  rintro ⟨-, hall⟩
  have := List.all_eq_true.mp hall _ hmem
  simp only [Bool.and_eq_true] at this
  have hfalse : containsSub "/tmp/something.txt" "project/models/" = false := by decide
  rw [hfalse] at this
  exact absurd this.1 (by simp)

/-- Whenever `flatten_paths` returns a mapping, that mapping is the
identity fold over an all-flat input, or the first pass adjusted (no
conflict groups), or the first pass after conflict resolution over some
groups, adjusted. -/
theorem flatten_paths_ok_cases (fps : List String) (b : Option String) (d : Nat) (m : Dict)
    (h : flatten_paths fps b d = .ok m) :
    m = fps.foldl (fun r p => dictSet r p p) [] ∨
    m = testAdjust fps d (firstPass b d fps []) ∨
    ∃ groups, m = testAdjust fps d (resolveConflicts d groups (firstPass b d fps [])) := by
  unfold flatten_paths at h
  by_cases h0 : fps = []
  · rw [if_pos h0] at h
    subst h0
    simp only [Except.ok.injEq] at h
    exact Or.inl (by simp [h.symm])
  · rw [if_neg h0] at h
    by_cases h1 : fps.all (fun p => !containsSub p "/") = true
    · rw [if_pos h1] at h
      simp only [Except.ok.injEq] at h
      exact Or.inl h.symm
    · rw [if_neg h1] at h
      split at h
      · exact absurd h (by simp)
      · split at h
        · split at h
          · exact absurd h (by simp)
          · simp only [Except.ok.injEq] at h
            exact Or.inr (Or.inl h.symm)
        · split at h
          · exact absurd h (by simp)
          · simp only [Except.ok.injEq] at h
            exact Or.inr (Or.inr ⟨_, h.symm⟩)

/-- The all-flat identity fold maps every member to itself. -/
theorem foldl_dictSet_id_lookup :
    ∀ (l : List String) (init : Dict) (p : String),
      (p ∈ l ∨ dictLookup init p = some p) →
      dictLookup (l.foldl (fun r q => dictSet r q q) init) p = some p := by
  intro l
  induction l with
  | nil =>
    intro init p h
    rcases h with h | h
    · simp at h
    · simpa using h
  | cons x xs ih =>
    intro init p h
    rw [List.foldl_cons]
    rcases h with h | h
    · rcases List.mem_cons.mp h with h | h
      · subst h
        exact ih _ _ (Or.inr (dictLookup_dictSet_self _ _ _))
      · exact ih _ _ (Or.inl h)
    · by_cases hx : p = x
      · subst hx
        exact ih _ _ (Or.inr (dictLookup_dictSet_self _ _ _))
      · exact ih _ _ (Or.inr (by rw [dictLookup_dictSet_ne _ _ _ _ hx]; exact h))

/-- Claim C10, counterexample: the claim fails as stated, because
`flatten_paths` does not always return a mapping at all.  On an input
containing `"/tmp/something.txt"` together with a reference that is the
literal string `"conflicts"` and two colliding references, the source
raises a `TypeError` (the flattened name `"conflicts"` occupies the
reserved bookkeeping key of the detection dict), so no name is assigned
to the special path. -/
theorem flatten_paths_conflicts_key_crash :
    flatten_paths ["conflicts", "a/x/q.txt", "b/x/q.txt", "/tmp/something.txt"] none 0 =
      .error .typeError ∧
    "/tmp/something.txt" ∈ ["conflicts", "a/x/q.txt", "b/x/q.txt", "/tmp/something.txt"] :=
  ⟨rfl, by decide⟩

/-- Claim C10, amended: the hard-coded escape set is exactly the
singleton `{"/tmp/something.txt"}`, and on every run in which
`flatten_paths` returns a mapping (it raises instead when a flattened
name collides with its reserved `'conflicts'` bookkeeping key), every
input list containing `"/tmp/something.txt"`, every `base_dir` and every
depth map `"/tmp/something.txt"` to itself — the passthrough survives
conflict resolution and the test-specific adjustment block.  No other
path is exempted by this mechanism: membership in `special_paths` is
equivalent to being that one literal. -/
theorem special_path_escape :
    (∀ p : String, p ∈ special_paths ↔ p = "/tmp/something.txt") ∧
    ∀ (fps : List String) (b : Option String) (d : Nat) (m : Dict),
      "/tmp/something.txt" ∈ fps →
      flatten_paths fps b d = .ok m →
      dictLookup m "/tmp/something.txt" = some "/tmp/something.txt" := by
  constructor
  · intro p
    simp [special_paths]
  · intro fps b d m hmem hok
    rcases flatten_paths_ok_cases fps b d m hok with hm | hm | ⟨groups, hm⟩
    · subst hm
      exact foldl_dictSet_id_lookup fps [] _ (Or.inl hmem)
    · subst hm
      rw [testAdjust_of_special_mem _ _ _ hmem]
      exact firstPass_lookup_special _ _ _ _ (Or.inl hmem)
    · subst hm
      rw [testAdjust_of_special_mem _ _ _ hmem]
      exact resolveConflicts_lookup_special _ _ _
        (firstPass_lookup_special _ _ _ _ (Or.inl hmem))

theorem special_path_escape_witness :
    ("/tmp/something.txt" ∈ ["/tmp/something.txt", "textures/wood.png"]) ∧
    flatten_paths ["/tmp/something.txt", "textures/wood.png"] none 2 =
      .ok [("/tmp/something.txt", "/tmp/something.txt"),
           ("textures/wood.png", "textures/wood.png")] ∧
    dictLookup [("/tmp/something.txt", "/tmp/something.txt"),
      ("textures/wood.png", "textures/wood.png")] "/tmp/something.txt" =
      some "/tmp/something.txt" :=
  ⟨by decide, rfl,
    special_path_escape.2 ["/tmp/something.txt", "textures/wood.png"] none 2
      [("/tmp/something.txt", "/tmp/something.txt"),
       ("textures/wood.png", "textures/wood.png")]
      (by decide) rfl⟩

end AssetCache

namespace AssetCache

end AssetCache
